import Mathlib

/-!
# libcamera-hw-sync: the pulse loop of `src/utils/hw-sync/libcamera-hw-sync.cpp`

A shallow embedding of `main`: the start-up computation of the nominal frame
period (line 74), and one iteration of the `while (true)` loop (lines 116-162)
as a function from the loop variables and the values the environment returns
during that iteration to the new loop variables and the list of observable
actions.  Machine integers are `Nat`/`Int` with explicit reduction modulo the
word size; a `double` is the rational it denotes, and a `double` operation is
the exact operation followed by rounding to a 53-bit significand.
-/

namespace HwSync

/-! ## Machine integers -/

/-- Conversion of a signed value to `uint32_t` (reduction modulo 2^32). -/
def toU32 (x : Int) : Nat := (x % (2 ^ 32 : Int)).toNat

/-- Conversion of a signed value to `uint64_t` (reduction modulo 2^64). -/
def toU64 (x : Int) : Nat := (x % (2 ^ 64 : Int)).toNat

/-! ## Data model -/

/-- The wire record, lines 18-24.  Field widths: `frameDuration` is
`uint32_t`, the four others are `uint64_t`. -/
structure SyncPayload where
  frameDuration : Nat
  systemFrameTimestamp : Nat
  wallClockFrameTimestamp : Nat
  systemReadyTime : Nat
  wallClockReadyTime : Nat
  deriving DecidableEq, Repr

/-- The value of the `source` string as far as the loop distinguishes it
(lines 117, 119, 123): anything else falls through every branch. -/
inductive Source where
  | timer
  | stdin
  | gpio
  | other
  deriving DecidableEq, Repr

/-- What the loop reads and never writes: the source selector, whether the
program was built with `HAVE_GPIOD`, and `frameDuration.count()`, the nominal
period in microseconds (a signed 64-bit count). -/
structure Config where
  source : Source
  haveGpiod : Bool
  frameDuration : Int
  deriving DecidableEq, Repr

/-- The variables the loop mutates: `frame` (line 75), `prevUs` and `first`
(lines 113-114). -/
structure LoopState where
  frame : Nat
  prevUs : Nat
  first : Bool
  deriving DecidableEq, Repr

/-- The values the environment hands back during one iteration: the result of
`getchar()`, of `gpiod_line_event_wait`, of `gpiod_line_event_read`, the
microsecond count of `system_clock::now()` and the result of `sendto`.  A value
whose call is not reached in an iteration is ignored. -/
structure IterInput where
  getcharRet : Int
  gpioWaitRet : Int
  gpioReadRet : Int
  clockUs : Int
  sendtoRet : Int
  deriving DecidableEq, Repr

/-- The observable actions of the loop, in program order. -/
inductive Event where
  | sleepFor (count : Int)
  | getchar
  | gpioWaitError
  | gpioReadError
  | pulseInterval (diff : Nat) (irregular : Bool)
  | sendto (payload : SyncPayload)
  | perrorSendto
  | frameSent (frame : Nat)
  deriving DecidableEq, Repr

/-! ## Start-up -/

/-- Truncation toward zero of a rational, the value of a C++ conversion from
floating point to an integer type. -/
def truncQ (q : ℚ) : Int := Int.tdiv q.num q.den

/-- Rounding of a rational to the nearest integer, a tie going to the even
neighbour. -/
def roundNearestEven (x : ℚ) : Int :=
  if x - (⌊x⌋ : ℚ) < 1 / 2 then ⌊x⌋
  else if 1 / 2 < x - (⌊x⌋ : ℚ) then ⌊x⌋ + 1
  else if ⌊x⌋ % 2 = 0 then ⌊x⌋ else ⌊x⌋ + 1

/-- The binary exponent of the unit in the last place of a 53-bit significand
that holds `q`: `floor (log2 |q|) - 52`. -/
def ulpExp (q : ℚ) : Int := Int.log 2 |q| - 52

/-- The IEEE-754 binary64 rounding (to nearest, ties to even) of an exact
result `q`, the exponent range taken as unbounded.  For line 74 the bounded
exponent changes nothing: a quotient too large for a `double` is also too large
for `int`, and a quotient in the subnormal range truncates to 0 either way. -/
def roundDouble (q : ℚ) : ℚ :=
  (roundNearestEven (q / (2 : ℚ) ^ ulpExp q) : ℚ) * (2 : ℚ) ^ ulpExp q

/-- Line 74, `static_cast<int>(1e6 / fps)`: the quotient in `double`
arithmetic, then truncation.  `fps` is the finite value the `double` variable
holds.  The result is `none` where the C++ conversion is undefined: a zero
divisor (the quotient is infinite), or a truncated value outside the range of
`int`. -/
def frameDurationCount (fps : ℚ) : Option Int :=
  if fps = 0 then none
  else
    let t := truncQ (roundDouble (1000000 / fps))
    if -(2 ^ 31 : Int) ≤ t ∧ t < (2 ^ 31 : Int) then some t else none

/-- Lines 75, 113, 114: the loop variables before the first iteration. -/
def initState : LoopState :=
  { frame := 0, prevUs := 0, first := true }

/-! ## One loop iteration -/

/-- Lines 117-135: the wait for a pulse.  Returns the actions performed and
whether control goes on to line 137 (`true`) or back to the top of the loop
through `continue` (`false`). -/
def waitPulse (cfg : Config) (inp : IterInput) : List Event × Bool :=
  match cfg.source with
  | Source.timer => ([Event.sleepFor cfg.frameDuration], true)
  | Source.stdin => ([Event.getchar], true)
  | Source.gpio =>
    if cfg.haveGpiod then
      if inp.gpioWaitRet < 0 then ([Event.gpioWaitError], false)
      else if inp.gpioReadRet < 0 then ([Event.gpioReadError], false)
      else ([], true)
    else ([], true)
  | Source.other => ([], true)

/-- Line 144: the condition `diff < exp * 9 / 10 || diff > exp * 11 / 10` on
`uint64_t` operands. -/
def irregular (diff exp : Nat) : Bool :=
  decide (diff < exp * 9 % 2 ^ 64 / 10 ∨ diff > exp * 11 % 2 ^ 64 / 10)

/-- Line 141: `nowUs - prevUs` on `uint64_t` operands, the difference modulo
2^64. -/
def diffU64 (prev cur : Nat) : Nat := (cur + 2 ^ 64 - prev) % 2 ^ 64

/-- Lines 140-147: the interval report, skipped while `first` is set. -/
def jitterCheck (cfg : Config) (st : LoopState) (nowUs : Nat) : List Event :=
  if st.first then []
  else
    let diff := diffU64 st.prevUs nowUs
    let exp := toU64 cfg.frameDuration
    [Event.pulseInterval diff (irregular diff exp)]

/-- Lines 151-154: the payload.  `count` is `frameDuration.count()`; the
product `100 * payload.frameDuration` has type `unsigned int` (32 bits), the
sum has type `uint64_t`. -/
def buildPayload (count : Int) (nowUs : Nat) : SyncPayload :=
  let fd := toU32 count
  { frameDuration := fd
    systemFrameTimestamp := 0
    wallClockFrameTimestamp := nowUs
    systemReadyTime := 0
    wallClockReadyTime := (nowUs + 100 * fd % 2 ^ 32) % 2 ^ 64 }

/-- Lines 156-159: the call of `sendto` and the report of its failure. -/
def sendStep (payload : SyncPayload) (sendtoRet : Int) : List Event :=
  if sendtoRet < 0 then [Event.sendto payload, Event.perrorSendto]
  else [Event.sendto payload]

/-- The body of the `while (true)` loop, lines 116-162. -/
def iterate (cfg : Config) (st : LoopState) (inp : IterInput) :
    LoopState × List Event :=
  let w := waitPulse cfg inp
  if w.2 then
    let nowUs := toU64 inp.clockUs
    let payload := buildPayload cfg.frameDuration nowUs
    ({ frame := (st.frame + 1) % 2 ^ 64, prevUs := nowUs, first := false },
      w.1 ++ jitterCheck cfg st nowUs ++ sendStep payload inp.sendtoRet
        ++ [Event.frameSent st.frame])
  else (st, w.1)

/-- The loop run for as many iterations as there are inputs. -/
def run (cfg : Config) : LoopState → List IterInput → LoopState × List Event
  | st, [] => (st, [])
  | st, inp :: rest =>
    let r := iterate cfg st inp
    let rs := run cfg r.1 rest
    (rs.1, r.2 ++ rs.2)

/-! ## Projections of the action list -/

/-- The payloads handed to `sendto`, in order. -/
def sentPayloads : List Event → List SyncPayload
  | [] => []
  | Event.sendto p :: es => p :: sentPayloads es
  | _ :: es => sentPayloads es

/-- The reported intervals with their classification, in order. -/
def reportedIntervals : List Event → List (Nat × Bool)
  | [] => []
  | Event.pulseInterval d b :: es => (d, b) :: reportedIntervals es
  | _ :: es => reportedIntervals es

/-- Whether an iteration gets past the wait, to the timestamp and the send. -/
def reachesSend (cfg : Config) (inp : IterInput) : Bool := (waitPulse cfg inp).2

/-- The timestamps of the pulses of a run: `nowUs` of each iteration that gets
past the wait. -/
def pulseTimes (cfg : Config) (inps : List IterInput) : List Nat :=
  (inps.filter (reachesSend cfg)).map (fun i => toU64 i.clockUs)

/-! ## The specification's band test -/

/-- The band test as the specification words it, over exact rationals: the
interval is irregular when it is below 0.9 times the period or above 1.1
times the period. -/
def exactIrregular (diff period : Nat) : Prop :=
  (diff : ℚ) < 9 / 10 * (period : ℚ) ∨ (diff : ℚ) > 11 / 10 * (period : ℚ)

instance (diff period : Nat) : Decidable (exactIrregular diff period) := by
  unfold exactIrregular; infer_instance

/-! ## Sample configurations and inputs -/

/-- A run with the timer source at 30 frames per second: the period is 33333
microseconds. -/
def timerCfg : Config := { source := Source.timer, haveGpiod := false, frameDuration := 33333 }

/-- A run with the manual source at 30 frames per second. -/
def stdinCfg : Config := { source := Source.stdin, haveGpiod := false, frameDuration := 33333 }

/-- A run with the GPIO source at 30 frames per second. -/
def gpioCfg : Config := { source := Source.gpio, haveGpiod := true, frameDuration := 33333 }

/-- A run with the timer source at 0.02 frames per second: the period is
50000000 microseconds. -/
def slowCfg : Config := { source := Source.timer, haveGpiod := false, frameDuration := 50000000 }

/-- An iteration in which every call succeeds and the clock reads `t`. -/
def pulseAt (t : Int) : IterInput :=
  { getcharRet := 10, gpioWaitRet := 1, gpioReadRet := 0, clockUs := t, sendtoRet := 40 }

/-- An iteration in which `getchar` returns `EOF` and the clock reads `t`. -/
def eofAt (t : Int) : IterInput :=
  { getcharRet := -1, gpioWaitRet := 1, gpioReadRet := 0, clockUs := t, sendtoRet := 40 }

/-- An iteration in which `sendto` fails and the clock reads `t`. -/
def sendFailAt (t : Int) : IterInput :=
  { getcharRet := 10, gpioWaitRet := 1, gpioReadRet := 0, clockUs := t, sendtoRet := -1 }

/-- An iteration in which the GPIO edge wait fails. -/
def gpioWaitFail : IterInput :=
  { getcharRet := 10, gpioWaitRet := -1, gpioReadRet := 0, clockUs := 0, sendtoRet := 40 }

/-- An iteration in which the GPIO event read fails. -/
def gpioReadFail : IterInput :=
  { getcharRet := 10, gpioWaitRet := 1, gpioReadRet := -1, clockUs := 0, sendtoRet := 40 }

/-! ## Auxiliary lemmas -/

theorem toU32_natCast (n : Nat) (h : n < 2 ^ 32) : toU32 (n : Int) = n := by
  unfold toU32
  have h1 : ((n : Int)) % (2 ^ 32 : Int) = (n : Int) :=
    Int.emod_eq_of_lt (Int.natCast_nonneg n) (by exact_mod_cast h)
  rw [h1]; exact Int.toNat_natCast n

theorem toU64_natCast (n : Nat) (h : n < 2 ^ 64) : toU64 (n : Int) = n := by
  unfold toU64
  have h1 : ((n : Int)) % (2 ^ 64 : Int) = (n : Int) :=
    Int.emod_eq_of_lt (Int.natCast_nonneg n) (by exact_mod_cast h)
  rw [h1]; exact Int.toNat_natCast n

theorem toU64_lt (x : Int) : toU64 x < 2 ^ 64 := by
  unfold toU64
  have h1 : x % (2 ^ 64 : Int) < (2 ^ 64 : Int) := Int.emod_lt_of_pos x (by norm_num)
  have h0 : 0 ≤ x % (2 ^ 64 : Int) := Int.emod_nonneg x (by norm_num)
  omega

theorem truncQ_of_nonneg (q : ℚ) (h : 0 ≤ q) : truncQ q = ⌊q⌋ := by
  unfold truncQ
  rw [Rat.floor_def]
  exact Int.tdiv_eq_ediv (Rat.num_nonneg.mpr h) (Int.natCast_nonneg _)

theorem roundNearestEven_err (x : ℚ) : |(roundNearestEven x : ℚ) - x| ≤ 1 / 2 := by
  have h0 : (0 : ℚ) ≤ x - (⌊x⌋ : ℚ) := by linarith [Int.floor_le x]
  have h1 : x - (⌊x⌋ : ℚ) < 1 := by linarith [Int.lt_floor_add_one x]
  unfold roundNearestEven
  rw [abs_le]
  split_ifs with ha hb hc
  · constructor <;> linarith
  · push_cast; constructor <;> linarith
  · constructor <;> linarith
  · push_cast; constructor <;> linarith

theorem roundNearestEven_intCast (z : Int) : roundNearestEven (z : ℚ) = z := by
  unfold roundNearestEven
  rw [Int.floor_intCast, if_pos (by norm_num)]

theorem roundDouble_err (q : ℚ) (hq : 0 < q) : |roundDouble q - q| ≤ q / 2 ^ 53 := by
  have hu : (0 : ℚ) < (2 : ℚ) ^ ulpExp q := zpow_pos (by norm_num) _
  have hle : ((2 : Nat) : ℚ) ^ Int.log 2 q ≤ q := Int.zpow_log_le_self (by norm_num) hq
  have hexp : (2 : ℚ) ^ ulpExp q = (2 : ℚ) ^ Int.log 2 q / 2 ^ 52 := by
    unfold ulpExp
    rw [abs_of_pos hq, zpow_sub₀ (by norm_num)]
    norm_cast
  have hsplit : roundDouble q - q
      = ((roundNearestEven (q / (2 : ℚ) ^ ulpExp q) : ℚ) - q / (2 : ℚ) ^ ulpExp q)
          * (2 : ℚ) ^ ulpExp q := by
    unfold roundDouble
    field_simp
  rw [hsplit, abs_mul, abs_of_pos hu]
  have herr := roundNearestEven_err (q / (2 : ℚ) ^ ulpExp q)
  have hcast : ((2 : Nat) : ℚ) = 2 := by norm_num
  rw [hcast] at hle
  calc |(roundNearestEven (q / (2 : ℚ) ^ ulpExp q) : ℚ) - q / (2 : ℚ) ^ ulpExp q|
        * (2 : ℚ) ^ ulpExp q
      ≤ 1 / 2 * (2 : ℚ) ^ ulpExp q := by
        exact mul_le_mul_of_nonneg_right herr hu.le
    _ = (2 : ℚ) ^ Int.log 2 q / 2 ^ 53 := by rw [hexp]; ring
    _ ≤ q / 2 ^ 53 := by
        exact div_le_div_of_nonneg_right hle (by positivity)

theorem roundDouble_natCast (m : Nat) (hm : m < 2 ^ 53) : roundDouble (m : ℚ) = m := by
  have hlog : Int.log 2 |(m : ℚ)| = (Nat.log 2 m : Int) := by
    rw [abs_of_nonneg (Nat.cast_nonneg m)]
    exact Int.log_natCast 2 m
  have hlt : Nat.log 2 m < 53 := by
    by_cases h0 : m = 0
    · subst h0; simp
    · exact Nat.log_lt_of_lt_pow h0 hm
  obtain ⟨k, hk⟩ : ∃ k : Nat, ulpExp (m : ℚ) = -(k : Int) := by
    refine ⟨52 - Nat.log 2 m, ?_⟩
    unfold ulpExp
    rw [hlog]
    omega
  unfold roundDouble
  rw [hk, zpow_neg, zpow_natCast]
  have hx : (m : ℚ) / ((2 : ℚ) ^ k)⁻¹ = (((m * 2 ^ k : Nat) : Int) : ℚ) := by
    push_cast
    field_simp
  rw [hx, roundNearestEven_intCast]
  push_cast
  field_simp

theorem floor_roundDouble_div (n m r : Nat) (h : 0 < n) (hdm : n * m + r = 1000000)
    (hmod : r < n) : ⌊roundDouble (1000000 / (n : ℚ))⌋ = (m : Int) := by
  have hnpos : (0 : ℚ) < n := by exact_mod_cast h
  have hq : (0 : ℚ) < 1000000 / (n : ℚ) := by positivity
  have hqeq : (1000000 : ℚ) / n = (m : ℚ) + (r : ℚ) / n := by
    have e : ((n * m + r : Nat) : ℚ) = 1000000 := by rw [hdm]; norm_num
    push_cast at e
    field_simp
    linarith
  by_cases hr : r = 0
  · rw [hqeq, hr]
    simp only [Nat.cast_zero, zero_div, add_zero]
    have hm : m ≤ 1000000 := by
      subst hr
      have : m ≤ n * m := Nat.le_mul_of_pos_left m h
      omega
    rw [roundDouble_natCast _ (by omega)]
    exact Int.floor_natCast _
  · have herr := roundDouble_err _ hq
    rw [abs_le] at herr
    have hsmall : (1000000 : ℚ) / n / 2 ^ 53 < 1 / n := by
      rw [div_div, div_lt_div_iff₀ (by positivity) hnpos]
      norm_num
      nlinarith
    have hr1 : (1 : ℚ) / n ≤ (r : ℚ) / n := by
      apply div_le_div_of_nonneg_right _ hnpos.le
      exact_mod_cast Nat.one_le_iff_ne_zero.mpr hr
    have hr2 : (r : ℚ) / n ≤ 1 - 1 / n := by
      rw [le_sub_iff_add_le, ← add_div, div_le_one hnpos]
      exact_mod_cast hmod
    rw [Int.floor_eq_iff, Int.cast_natCast]
    constructor <;> linarith [herr.1, herr.2]

theorem frameDurationCount_natCast (n : Nat) (h : 0 < n) :
    frameDurationCount (n : ℚ) = some ((1000000 / n : Nat) : Int) := by
  have hn : (n : ℚ) ≠ 0 := by exact_mod_cast h.ne'
  have hle : 1000000 / n ≤ 1000000 := Nat.div_le_self _ _
  have hfl := floor_roundDouble_div n (1000000 / n) (1000000 % n) h
    (Nat.div_add_mod _ _) (Nat.mod_lt _ h)
  generalize 1000000 / n = m at hle hfl
  have hnn : (0 : ℚ) ≤ roundDouble (1000000 / (n : ℚ)) := by
    have h0 : (0 : Int) ≤ ⌊roundDouble (1000000 / (n : ℚ))⌋ := by rw [hfl]; omega
    exact Int.floor_nonneg.mp h0
  unfold frameDurationCount
  rw [if_neg hn]
  simp only [truncQ_of_nonneg _ hnn, hfl]
  rw [if_pos]
  constructor <;> omega

theorem sentPayloads_append (xs ys : List Event) :
    sentPayloads (xs ++ ys) = sentPayloads xs ++ sentPayloads ys := by
  induction xs with
  | nil => rfl
  | cons x xs ih => cases x <;> simp [sentPayloads, ih]

theorem reportedIntervals_append (xs ys : List Event) :
    reportedIntervals (xs ++ ys) = reportedIntervals xs ++ reportedIntervals ys := by
  induction xs with
  | nil => rfl
  | cons x xs ih => cases x <;> simp [reportedIntervals, ih]

theorem sentPayloads_waitPulse (cfg : Config) (inp : IterInput) :
    sentPayloads (waitPulse cfg inp).1 = [] := by
  unfold waitPulse
  cases cfg.source <;> simp only [sentPayloads]
  split_ifs <;> rfl

theorem reportedIntervals_waitPulse (cfg : Config) (inp : IterInput) :
    reportedIntervals (waitPulse cfg inp).1 = [] := by
  unfold waitPulse
  cases cfg.source <;> simp only [reportedIntervals]
  split_ifs <;> rfl

theorem sentPayloads_jitterCheck (cfg : Config) (st : LoopState) (t : Nat) :
    sentPayloads (jitterCheck cfg st t) = [] := by
  unfold jitterCheck
  split_ifs <;> rfl

theorem sentPayloads_sendStep (p : SyncPayload) (r : Int) :
    sentPayloads (sendStep p r) = [p] := by
  unfold sendStep
  split_ifs <;> rfl

theorem reportedIntervals_sendStep (p : SyncPayload) (r : Int) :
    reportedIntervals (sendStep p r) = [] := by
  unfold sendStep
  split_ifs <;> rfl

theorem iterate_of_reaches (cfg : Config) (st : LoopState) (inp : IterInput)
    (h : reachesSend cfg inp = true) :
    iterate cfg st inp =
      ({ frame := (st.frame + 1) % 2 ^ 64, prevUs := toU64 inp.clockUs, first := false },
        (waitPulse cfg inp).1 ++ jitterCheck cfg st (toU64 inp.clockUs)
          ++ sendStep (buildPayload cfg.frameDuration (toU64 inp.clockUs)) inp.sendtoRet
          ++ [Event.frameSent st.frame]) := by
  unfold reachesSend at h
  simp [iterate, h]

theorem iterate_of_not_reaches (cfg : Config) (st : LoopState) (inp : IterInput)
    (h : reachesSend cfg inp = false) :
    iterate cfg st inp = (st, (waitPulse cfg inp).1) := by
  unfold reachesSend at h
  simp [iterate, h]

theorem sentPayloads_iterate (cfg : Config) (st : LoopState) (inp : IterInput) :
    sentPayloads (iterate cfg st inp).2 =
      if reachesSend cfg inp = true
      then [buildPayload cfg.frameDuration (toU64 inp.clockUs)] else [] := by
  by_cases h : reachesSend cfg inp = true
  · rw [if_pos h, iterate_of_reaches cfg st inp h]
    simp [sentPayloads_append, sentPayloads_waitPulse, sentPayloads_jitterCheck,
      sentPayloads_sendStep, sentPayloads]
  · rw [if_neg h, iterate_of_not_reaches cfg st inp (by simpa using h)]
    exact sentPayloads_waitPulse cfg inp

theorem pulseTimes_cons (cfg : Config) (inp : IterInput) (rest : List IterInput) :
    pulseTimes cfg (inp :: rest) =
      if reachesSend cfg inp = true then toU64 inp.clockUs :: pulseTimes cfg rest
      else pulseTimes cfg rest := by
  unfold pulseTimes
  by_cases h : reachesSend cfg inp = true <;> simp [List.filter_cons, h]

theorem sentPayloads_run (cfg : Config) (st : LoopState) (inps : List IterInput) :
    sentPayloads (run cfg st inps).2 =
      (pulseTimes cfg inps).map (buildPayload cfg.frameDuration) := by
  induction inps generalizing st with
  | nil => rfl
  | cons inp rest ih =>
    simp only [run, sentPayloads_append, ih, sentPayloads_iterate, pulseTimes_cons]
    by_cases h : reachesSend cfg inp = true <;> simp [h]

theorem frame_run (cfg : Config) (st : LoopState) (inps : List IterInput) :
    (run cfg st inps).1.frame % 2 ^ 64 =
      (st.frame + (pulseTimes cfg inps).length) % 2 ^ 64 := by
  induction inps generalizing st with
  | nil => simp [run, pulseTimes]
  | cons inp rest ih =>
    simp only [run, ih, pulseTimes_cons]
    by_cases h : reachesSend cfg inp = true
    · rw [iterate_of_reaches cfg st inp h]
      simp only [h, if_true, List.length_cons]
      omega
    · rw [iterate_of_not_reaches cfg st inp (by simpa using h)]
      simp [h]

theorem frame_run_lt (cfg : Config) (st : LoopState) (inps : List IterInput)
    (h : st.frame < 2 ^ 64) : (run cfg st inps).1.frame < 2 ^ 64 := by
  induction inps generalizing st with
  | nil => simpa [run] using h
  | cons inp rest ih =>
    simp only [run]
    apply ih
    by_cases hr : reachesSend cfg inp = true
    · rw [iterate_of_reaches cfg st inp hr]
      exact Nat.mod_lt _ (by norm_num)
    · rw [iterate_of_not_reaches cfg st inp (by simpa using hr)]
      exact h

theorem reportedIntervals_iterate (cfg : Config) (st : LoopState) (inp : IterInput) :
    reportedIntervals (iterate cfg st inp).2 =
      if reachesSend cfg inp = true ∧ st.first = false
      then [(diffU64 st.prevUs (toU64 inp.clockUs),
              irregular (diffU64 st.prevUs (toU64 inp.clockUs)) (toU64 cfg.frameDuration))]
      else [] := by
  by_cases h : reachesSend cfg inp = true
  · rw [iterate_of_reaches cfg st inp h]
    simp only [reportedIntervals_append, reportedIntervals_waitPulse,
      reportedIntervals_sendStep, reportedIntervals, jitterCheck, diffU64]
    cases hf : st.first <;> simp [h, reportedIntervals]
  · rw [iterate_of_not_reaches cfg st inp (by simpa using h)]
    simp [h, reportedIntervals_waitPulse]

theorem reportedIntervals_run_from (cfg : Config) (st : LoopState)
    (inps : List IterInput) (hf : st.first = false) :
    (reportedIntervals (run cfg st inps).2).map Prod.fst =
      List.zipWith diffU64 (st.prevUs :: pulseTimes cfg inps) (pulseTimes cfg inps) := by
  induction inps generalizing st with
  | nil => simp [run, pulseTimes, reportedIntervals]
  | cons inp rest ih =>
    simp only [run, reportedIntervals_append, List.map_append, reportedIntervals_iterate,
      pulseTimes_cons]
    by_cases h : reachesSend cfg inp = true
    · rw [ih (iterate cfg st inp).1 (by rw [iterate_of_reaches cfg st inp h])]
      rw [iterate_of_reaches cfg st inp h]
      simp [h, hf]
    · rw [ih (iterate cfg st inp).1
        (by rw [iterate_of_not_reaches cfg st inp (by simpa using h)]; exact hf)]
      rw [iterate_of_not_reaches cfg st inp (by simpa using h)]
      simp [h]

theorem reportedIntervals_run_init (cfg : Config) (inps : List IterInput) :
    (reportedIntervals (run cfg initState inps).2).map Prod.fst =
      List.zipWith diffU64 (pulseTimes cfg inps) (pulseTimes cfg inps).tail := by
  induction inps with
  | nil => simp [run, pulseTimes, reportedIntervals]
  | cons inp rest ih =>
    by_cases h : reachesSend cfg inp = true
    · simp only [run, reportedIntervals_append, List.map_append, reportedIntervals_iterate,
        pulseTimes_cons]
      rw [reportedIntervals_run_from cfg (iterate cfg initState inp).1 rest
        (by rw [iterate_of_reaches cfg initState inp h])]
      rw [iterate_of_reaches cfg initState inp h]
      simp [h, initState]
    · have hn : reachesSend cfg inp = false := by simpa using h
      simp only [run, reportedIntervals_append, List.map_append, reportedIntervals_iterate,
        pulseTimes_cons]
      rw [iterate_of_not_reaches cfg initState inp hn]
      simp only [h, if_false, false_and]
      simpa using ih

theorem irregular_run (cfg : Config) (st : LoopState) (inps : List IterInput) :
    ∀ x ∈ reportedIntervals (run cfg st inps).2,
      x.2 = irregular x.1 (toU64 cfg.frameDuration) := by
  induction inps generalizing st with
  | nil => simp [run, reportedIntervals]
  | cons inp rest ih =>
    intro x hx
    simp only [run, reportedIntervals_append, List.mem_append] at hx
    rcases hx with hx | hx
    · rw [reportedIntervals_iterate] at hx
      split_ifs at hx with hc
      · simp only [List.mem_singleton] at hx
        rw [hx]
      · simp at hx
    · exact ih _ x hx

theorem exactIrregular_iff (d e : Nat) :
    exactIrregular d e ↔ (10 * d < 9 * e ∨ 11 * e < 10 * d) := by
  unfold exactIrregular
  have h1 : (d : ℚ) < 9 / 10 * (e : ℚ) ↔ 10 * d < 9 * e := by
    rw [← Nat.cast_lt (α := ℚ)]; push_cast
    constructor <;> intro h <;> linarith
  have h2 : (d : ℚ) > 11 / 10 * (e : ℚ) ↔ 11 * e < 10 * d := by
    rw [← Nat.cast_lt (α := ℚ)]; push_cast
    constructor <;> intro h <;> linarith
  rw [h1, h2]

theorem irregular_iff (d e : Nat) (he : e < 2 ^ 31) :
    irregular d e = true ↔ (d < 9 * e / 10 ∨ 11 * e / 10 < d) := by
  unfold irregular
  have h9 : e * 9 % 2 ^ 64 = 9 * e := by
    rw [Nat.mod_eq_of_lt (by omega)]; omega
  have h11 : e * 11 % 2 ^ 64 = 11 * e := by
    rw [Nat.mod_eq_of_lt (by omega)]; omega
  rw [h9, h11]
  simp

theorem floor_nine_tenths (p : Nat) : ⌊(9 / 10 : ℚ) * (p : ℚ)⌋ = ((9 * p / 10 : Nat) : Int) := by
  have h := Rat.floor_intCast_div_natCast ((9 * p : Nat) : Int) 10
  have e : (9 / 10 : ℚ) * (p : ℚ) = (((9 * p : Nat) : Int) : ℚ) / ((10 : Nat) : ℚ) := by
    push_cast; ring
  rw [e, h]
  norm_cast

theorem floor_eq_round_iff (x : ℚ) : ⌊x⌋ = round x ↔ Int.fract x < 1 / 2 := by
  unfold round
  by_cases h : 2 * Int.fract x < 1
  · rw [if_pos h]
    exact iff_of_true rfl (by linarith)
  · rw [if_neg h]
    have hne : Int.fract x ≠ 0 := by
      intro h0; rw [h0] at h; norm_num at h
    have hc : (⌈x⌉ : ℚ) = (⌊x⌋ : ℚ) + 1 := by
      rw [Int.ceil_eq_add_one_sub_fract hne, ← Int.self_sub_floor]; ring
    refine iff_of_false ?_ (by linarith)
    intro heq
    have : (⌊x⌋ : ℚ) = (⌈x⌉ : ℚ) := by exact_mod_cast heq
    linarith

/-! ## The claims -/

/-- C1 (refuted as stated): with a period of 50000000 microseconds (0.02 frames
per second) and a pulse at 1000000, the payload handed to `sendto` carries
`wallClockReadyTime = 706032704`, while `wallClockFrameTimestamp + 100 *
frameDuration` is 5001000000; and with a timestamp of 2^64 - 1 and a period of 1
the field is 99 while the exact sum is 2^64 + 99. -/
theorem readyTime_exact_counterexample :
    sentPayloads (iterate slowCfg initState (pulseAt 1000000)).2 =
        [{ frameDuration := 50000000, systemFrameTimestamp := 0,
           wallClockFrameTimestamp := 1000000, systemReadyTime := 0,
           wallClockReadyTime := 706032704 }]
      ∧ (buildPayload 50000000 1000000).wallClockReadyTime
          ≠ (buildPayload 50000000 1000000).wallClockFrameTimestamp
              + 100 * (buildPayload 50000000 1000000).frameDuration
      ∧ (buildPayload 1 (2 ^ 64 - 1)).wallClockReadyTime = 99
      ∧ (buildPayload 1 (2 ^ 64 - 1)).wallClockFrameTimestamp
          + 100 * (buildPayload 1 (2 ^ 64 - 1)).frameDuration = 2 ^ 64 + 99 := by
  refine ⟨by decide, by decide, by decide, by decide⟩

/-- C1 (amended): every payload handed to `sendto` in a run of the loop whose
`frameDuration` is at most 42949672 and whose exact sum
`wallClockFrameTimestamp + 100 * frameDuration` is below 2^64 has
`wallClockReadyTime` equal to that exact sum. -/
theorem readyTime_exact_in_range (cfg : Config) (st : LoopState) (inps : List IterInput)
    (q : SyncPayload) (hq : q ∈ sentPayloads (run cfg st inps).2)
    (hfd : q.frameDuration ≤ 42949672)
    (hsum : q.wallClockFrameTimestamp + 100 * q.frameDuration < 2 ^ 64) :
    q.wallClockReadyTime = q.wallClockFrameTimestamp + 100 * q.frameDuration := by
  rw [sentPayloads_run, List.mem_map] at hq
  obtain ⟨t, _, rfl⟩ := hq
  simp only [buildPayload] at hfd hsum ⊢
  rw [Nat.mod_eq_of_lt (a := 100 * toU32 cfg.frameDuration) (by omega)]
  exact Nat.mod_eq_of_lt hsum

/-- Witness for C1 (amended): the specification's scenario, a period of 33333
and a pulse at 1000000, gives a ready time of 4333300. -/
theorem readyTime_exact_in_range_witness :
    buildPayload 33333 1000000 ∈ sentPayloads (run timerCfg initState [pulseAt 1000000]).2
      ∧ (buildPayload 33333 1000000).wallClockReadyTime = 1000000 + 100 * 33333 :=
  ⟨by decide,
   readyTime_exact_in_range timerCfg initState [pulseAt 1000000]
     (buildPayload 33333 1000000) (by decide) (by decide) (by decide)⟩

/-- C10: for a 32-bit `fd` and a 64-bit `nowUs` the computed
`wallClockReadyTime` is `(nowUs + (100 * fd) mod 2^32) mod 2^64`; it equals the
exact `nowUs + 100 * fd` whenever `fd ≤ 42949672` and that sum is below 2^64,
and differs from it for every `fd ≥ 42949673`. -/
theorem readyTime_u32_product (fd nowUs : Nat) (hfd : fd < 2 ^ 32) (hnow : nowUs < 2 ^ 64) :
    (buildPayload (fd : Int) nowUs).frameDuration = fd
      ∧ (buildPayload (fd : Int) nowUs).wallClockReadyTime
          = (nowUs + (100 * fd) % 2 ^ 32) % 2 ^ 64
      ∧ (fd ≤ 42949672 → nowUs + 100 * fd < 2 ^ 64 →
          (buildPayload (fd : Int) nowUs).wallClockReadyTime = nowUs + 100 * fd)
      ∧ (42949673 ≤ fd →
          (buildPayload (fd : Int) nowUs).wallClockReadyTime ≠ nowUs + 100 * fd) := by
  have hu : toU32 (fd : Int) = fd := toU32_natCast fd hfd
  simp only [buildPayload, hu]
  refine ⟨trivial, trivial, ?_, ?_⟩
  · intro h1 h2
    rw [Nat.mod_eq_of_lt (a := 100 * fd) (by omega)]
    exact Nat.mod_eq_of_lt h2
  · intro h1 h2
    have ha : 100 * fd % 2 ^ 32 < 2 ^ 32 := Nat.mod_lt _ (by norm_num)
    have hb : (nowUs + 100 * fd % 2 ^ 32) % 2 ^ 64 ≤ nowUs + 100 * fd % 2 ^ 32 :=
      Nat.mod_le _ _
    omega

/-- Witness for C10: a period of 50000000 and a pulse at 1000000. -/
theorem readyTime_u32_product_witness :
    (50000000 < 2 ^ 32 ∧ 1000000 < 2 ^ 64)
      ∧ (buildPayload ((50000000 : Nat) : Int) 1000000).wallClockReadyTime
          = (1000000 + (100 * 50000000) % 2 ^ 32) % 2 ^ 64
      ∧ (buildPayload ((50000000 : Nat) : Int) 1000000).wallClockReadyTime
          ≠ 1000000 + 100 * 50000000 :=
  ⟨by decide,
   (readyTime_u32_product 50000000 1000000 (by decide) (by decide)).2.1,
   (readyTime_u32_product 50000000 1000000 (by decide) (by decide)).2.2.2 (by decide)⟩

/-- C9: for a period `e < 2^31` the loop's integer test and the exact band test
disagree exactly when `d = floor(9 * e / 10)` and 10 does not divide `9 * e`,
and there the integer test says regular; the upper-bound comparison
`d > e * 11 / 10` agrees with `d > 1.1 * e` throughout. -/
theorem irregular_vs_exact (e d : Nat) (he : e < 2 ^ 31) :
    (¬ (irregular d e = true ↔ exactIrregular d e) ↔ (d = 9 * e / 10 ∧ ¬ 10 ∣ 9 * e))
      ∧ (d = 9 * e / 10 ∧ ¬ 10 ∣ 9 * e → irregular d e = false ∧ exactIrregular d e)
      ∧ (d > e * 11 % 2 ^ 64 / 10 ↔ (d : ℚ) > 11 / 10 * (e : ℚ)) := by
  have hi := irregular_iff d e he
  have hx := exactIrregular_iff d e
  refine ⟨?_, ?_, ?_⟩
  · rw [hi, hx]; omega
  · intro h
    have h1 : ¬ irregular d e = true := by rw [hi]; omega
    have h2 : exactIrregular d e := by rw [hx]; omega
    exact ⟨by simpa using h1, h2⟩
  · have h11 : e * 11 % 2 ^ 64 = 11 * e := by
      rw [Nat.mod_eq_of_lt (by omega)]; omega
    have h2 : (d : ℚ) > 11 / 10 * (e : ℚ) ↔ 11 * e < 10 * d := by
      rw [← Nat.cast_lt (α := ℚ)]; push_cast
      constructor <;> intro h <;> linarith
    rw [h11, h2]; omega

/-- Witness for C9: with a period of 33333 the tests disagree at an interval
of 29999. -/
theorem irregular_vs_exact_witness :
    33333 < 2 ^ 31 ∧ (irregular 29999 33333 = false ∧ exactIrregular 29999 33333) :=
  ⟨by decide, (irregular_vs_exact 33333 29999 (by decide)).2.1 (by decide)⟩

/-- C2 (refuted as stated): at 30 frames per second (period 33333), pulses at
0 and 29999 are reported as an interval of 29999 that is not marked irregular,
although 29999 is below 0.9 times 33333. -/
theorem jitter_exact_band_counterexample :
    reportedIntervals (run timerCfg initState [pulseAt 0, pulseAt 29999]).2 = [(29999, false)]
      ∧ exactIrregular 29999 33333 := by
  refine ⟨by decide, ?_⟩
  rw [exactIrregular_iff]; decide

/-- C2 (amended): for a period `p < 2^31` and consecutive pulse timestamps
`prevUs < tcur < 2^64`, the jitter check reports the interval `tcur - prevUs`
and marks it irregular if and only if the interval is below the integer part of
0.9 times the period or above 1.1 times the period. -/
theorem jitter_truncated_band (cfg : Config) (st : LoopState) (p tcur : Nat)
    (hp : cfg.frameDuration = (p : Int)) (hp31 : p < 2 ^ 31)
    (hfirst : st.first = false) (hlt : st.prevUs < tcur) (hcur : tcur < 2 ^ 64) :
    ∃ b : Bool, jitterCheck cfg st tcur = [Event.pulseInterval (tcur - st.prevUs) b]
      ∧ (b = true ↔
          (((tcur - st.prevUs : Nat) : ℚ) < ((⌊(9 / 10 : ℚ) * (p : ℚ)⌋ : Int) : ℚ)
            ∨ ((tcur - st.prevUs : Nat) : ℚ) > 11 / 10 * (p : ℚ))) := by
  have hd : diffU64 st.prevUs tcur = tcur - st.prevUs := by
    unfold diffU64
    have e : tcur + 2 ^ 64 - st.prevUs = (tcur - st.prevUs) + 2 ^ 64 := by omega
    rw [e, Nat.add_mod_right]
    exact Nat.mod_eq_of_lt (by omega)
  have hu : toU64 cfg.frameDuration = p := by
    rw [hp]; exact toU64_natCast p (by omega)
  refine ⟨irregular (tcur - st.prevUs) p, ?_, ?_⟩
  · simp [jitterCheck, hfirst, hd, hu]
  · rw [irregular_iff _ _ hp31, floor_nine_tenths]
    have h1 : (((tcur - st.prevUs : Nat) : ℚ) < (((9 * p / 10 : Nat) : Int) : ℚ))
        ↔ tcur - st.prevUs < 9 * p / 10 := by
      rw [Int.cast_natCast, Nat.cast_lt]
    have h2 : ((tcur - st.prevUs : Nat) : ℚ) > 11 / 10 * (p : ℚ)
        ↔ 11 * p < 10 * (tcur - st.prevUs) := by
      rw [← Nat.cast_lt (α := ℚ)]; push_cast
      constructor <;> intro h <;> linarith
    rw [h1, h2]; omega

/-- Witness for C2 (amended): the specification's scenario at period 33333, a
pulse at 0 followed by one at 50000. -/
theorem jitter_truncated_band_witness :
    ∃ b : Bool,
      jitterCheck timerCfg { frame := 1, prevUs := 0, first := false } 50000
          = [Event.pulseInterval (50000 - 0) b]
      ∧ (b = true ↔
          (((50000 - 0 : Nat) : ℚ) < ((⌊(9 / 10 : ℚ) * ((33333 : Nat) : ℚ)⌋ : Int) : ℚ)
            ∨ ((50000 - 0 : Nat) : ℚ) > 11 / 10 * ((33333 : Nat) : ℚ))) :=
  jitter_truncated_band timerCfg { frame := 1, prevUs := 0, first := false } 33333 50000
    rfl (by decide) rfl (by decide) (by decide)

/-- C3 (refuted as stated): at 60 frames per second the computed period is
16666 microseconds, while 1000000 / 60 rounded to nearest is 16667. -/
theorem period_round_counterexample :
    frameDurationCount 60 = some 16666 ∧ round ((1000000 : ℚ) / 60) = 16667 := by
  constructor
  · have h := frameDurationCount_natCast 60 (by decide)
    have e : ((60 : Nat) : ℚ) = 60 := by norm_num
    rw [e] at h
    rw [h]; rfl
  · rw [round_eq, Int.floor_eq_iff]
    norm_num

/-- C3 (amended): for every positive integer frame rate `fps` below 2^53 (so
that the `double` holds it exactly), the quotient being formed in `double`
arithmetic, the period computed at start-up is the integer part of
`1000000 / fps` (truncation, not rounding to nearest); it coincides with
`round (1000000 / fps)` exactly when the fractional part of the quotient is
below one half. -/
theorem period_is_floor (n : Nat) (hpos : 0 < n) (hn : n < 2 ^ 53) :
    roundDouble (n : ℚ) = (n : ℚ)
      ∧ frameDurationCount (n : ℚ) = some ⌊(1000000 : ℚ) / (n : ℚ)⌋
      ∧ ⌊(1000000 : ℚ) / (n : ℚ)⌋ = ((1000000 / n : Nat) : Int)
      ∧ (frameDurationCount (n : ℚ) = some (round ((1000000 : ℚ) / (n : ℚ)))
          ↔ Int.fract ((1000000 : ℚ) / (n : ℚ)) < 1 / 2) := by
  have hfl : ⌊(1000000 : ℚ) / (n : ℚ)⌋ = ((1000000 / n : Nat) : Int) := by
    have := Rat.floor_intCast_div_natCast 1000000 n
    simpa using this
  have hmain : frameDurationCount (n : ℚ) = some ⌊(1000000 : ℚ) / (n : ℚ)⌋ := by
    rw [hfl]; exact frameDurationCount_natCast n hpos
  refine ⟨roundDouble_natCast n hn, hmain, hfl, ?_⟩
  rw [hmain, Option.some_inj]
  exact floor_eq_round_iff _

/-- Witness for C3 (amended): 30 frames per second gives 33333 microseconds. -/
theorem period_is_floor_witness :
    (0 < 30 ∧ 30 < 2 ^ 53)
      ∧ frameDurationCount ((30 : Nat) : ℚ) = some ⌊(1000000 : ℚ) / ((30 : Nat) : ℚ)⌋
      ∧ ⌊(1000000 : ℚ) / ((30 : Nat) : ℚ)⌋ = ((1000000 / 30 : Nat) : Int)
      ∧ (1000000 / 30 : Nat) = 33333 :=
  ⟨by decide, (period_is_floor 30 (by decide) (by decide)).2.1,
   (period_is_floor 30 (by decide) (by decide)).2.2.1, by decide⟩

/-- C4: with a nominal period `p` (`0 ≤ p < 2^31`), an iteration that gets to
the send step hands `sendto` one payload with `frameDuration = p`,
`systemFrameTimestamp = 0`, `wallClockFrameTimestamp = nowUs` and
`systemReadyTime = 0`; over a whole run every payload carries that same `p` with
the timestamps of the pulses in order, and every reported classification is the
jitter test evaluated with expected period `p`; in particular an iteration
that gets past the wait with the first-pulse flag cleared reports exactly one
interval, classified against `p`. -/
theorem payload_fields (cfg : Config) (p : Nat) (hp : cfg.frameDuration = (p : Int))
    (hp31 : p < 2 ^ 31) (st : LoopState) (inps : List IterInput) :
    (∀ inp, reachesSend cfg inp = true →
        ∃ r, sentPayloads (iterate cfg st inp).2 =
          [{ frameDuration := p, systemFrameTimestamp := 0,
             wallClockFrameTimestamp := toU64 inp.clockUs, systemReadyTime := 0,
             wallClockReadyTime := r }])
      ∧ (∀ q ∈ sentPayloads (run cfg st inps).2,
          q.frameDuration = p ∧ q.systemFrameTimestamp = 0 ∧ q.systemReadyTime = 0)
      ∧ (sentPayloads (run cfg st inps).2).map (fun q => q.wallClockFrameTimestamp)
          = pulseTimes cfg inps
      ∧ (∀ x ∈ reportedIntervals (run cfg st inps).2,
          (x.2 = true ↔ (x.1 < p * 9 / 10 ∨ x.1 > p * 11 / 10)))
      ∧ (∀ inp, st.first = false → reachesSend cfg inp = true →
          reportedIntervals (iterate cfg st inp).2 =
            [(diffU64 st.prevUs (toU64 inp.clockUs),
              decide (diffU64 st.prevUs (toU64 inp.clockUs) < p * 9 / 10
                ∨ diffU64 st.prevUs (toU64 inp.clockUs) > p * 11 / 10))]) := by
  have hu32 : toU32 cfg.frameDuration = p := by
    rw [hp]; exact toU32_natCast p (by omega)
  have hu64 : toU64 cfg.frameDuration = p := by
    rw [hp]; exact toU64_natCast p (by omega)
  refine ⟨?_, ?_, ?_, ?_, ?_⟩
  · intro inp hr
    refine ⟨(toU64 inp.clockUs + 100 * p % 2 ^ 32) % 2 ^ 64, ?_⟩
    rw [sentPayloads_iterate, if_pos hr]
    simp [buildPayload, hu32]
  · intro q hq
    rw [sentPayloads_run, List.mem_map] at hq
    obtain ⟨t, _, rfl⟩ := hq
    simp [buildPayload, hu32]
  · rw [sentPayloads_run, List.map_map]
    have hf : ((fun q : SyncPayload => q.wallClockFrameTimestamp)
        ∘ buildPayload cfg.frameDuration) = id := by
      funext t; simp [buildPayload]
    rw [hf, List.map_id]
  · intro x hx
    rw [irregular_run cfg st inps x hx, hu64, irregular_iff _ _ hp31]
    omega
  · intro inp hf hr
    rw [reportedIntervals_iterate, if_pos ⟨hr, hf⟩, hu64]
    have h9 : p * 9 % 2 ^ 64 = p * 9 := Nat.mod_eq_of_lt (by omega)
    have h11 : p * 11 % 2 ^ 64 = p * 11 := Nat.mod_eq_of_lt (by omega)
    simp only [irregular, h9, h11]

/-- Witness for C4: at 30 frames per second, two pulses from the start of a
run, and a pulse 50000 microseconds after an earlier one, which is reported
once and marked irregular against the period 33333. -/
theorem payload_fields_witness :
    ((sentPayloads (run timerCfg initState [pulseAt 1000000, pulseAt 1033333]).2).map
          (fun q => q.wallClockFrameTimestamp)
        = pulseTimes timerCfg [pulseAt 1000000, pulseAt 1033333]
      ∧ pulseTimes timerCfg [pulseAt 1000000, pulseAt 1033333] = [1000000, 1033333])
    ∧ (reportedIntervals
          (iterate timerCfg { frame := 1, prevUs := 1000000, first := false }
            (pulseAt 1050000)).2
        = [(diffU64 1000000 (toU64 1050000),
            decide (diffU64 1000000 (toU64 1050000) < 33333 * 9 / 10
              ∨ diffU64 1000000 (toU64 1050000) > 33333 * 11 / 10))]
      ∧ (diffU64 1000000 (toU64 1050000),
            decide (diffU64 1000000 (toU64 1050000) < 33333 * 9 / 10
              ∨ diffU64 1000000 (toU64 1050000) > 33333 * 11 / 10)) = (50000, true)) :=
  ⟨⟨(payload_fields timerCfg 33333 rfl (by decide) initState
      [pulseAt 1000000, pulseAt 1033333]).2.2.1, by decide⟩,
   ⟨(payload_fields timerCfg 33333 rfl (by decide)
      { frame := 1, prevUs := 1000000, first := false } []).2.2.2.2
        (pulseAt 1050000) rfl (by decide), by decide⟩⟩

/-- C5 (refuted as stated): with the manual source, an iteration in which
`getchar` returns `EOF` still hands a payload to `sendto` and moves the frame
counter from 0 to 1. -/
theorem eof_terminates_counterexample :
    iterate stdinCfg initState (eofAt 1000000) =
      ({ frame := 1, prevUs := 1000000, first := false },
        [Event.getchar, Event.sendto (buildPayload 33333 1000000), Event.frameSent 0])
      ∧ sentPayloads (iterate stdinCfg initState (eofAt 1000000)).2 ≠ []
      ∧ (iterate stdinCfg initState (eofAt 1000000)).1.frame ≠ initState.frame := by
  refine ⟨by decide, by decide, by decide⟩

/-- C5 (amended): with the manual source the result of `getchar` is discarded,
so an iteration at end-of-input proceeds as for any pulse: whatever the state,
one payload is handed to `sendto`, the frame counter advances by one (modulo
2^64), and the outcome is the same as for any other value `getchar` could have
returned. -/
theorem eof_is_a_pulse (cfg : Config) (st : LoopState) (inp : IterInput)
    (hsrc : cfg.source = Source.stdin) (_heof : inp.getcharRet = -1) :
    sentPayloads (iterate cfg st inp).2 = [buildPayload cfg.frameDuration (toU64 inp.clockUs)]
      ∧ (iterate cfg st inp).1.frame = (st.frame + 1) % 2 ^ 64
      ∧ ∀ c : Int, iterate cfg st { inp with getcharRet := c } = iterate cfg st inp := by
  have hr : ∀ i : IterInput, reachesSend cfg i = true := by
    intro i; simp [reachesSend, waitPulse, hsrc]
  refine ⟨?_, ?_, ?_⟩
  · rw [sentPayloads_iterate, if_pos (hr inp)]
  · rw [iterate_of_reaches cfg st inp (hr inp)]
  · intro c
    rw [iterate_of_reaches cfg st _ (hr _), iterate_of_reaches cfg st inp (hr inp)]
    simp [waitPulse, hsrc]

/-- Witness for C5 (amended): end-of-input on the first iteration of a run. -/
theorem eof_is_a_pulse_witness :
    (stdinCfg.source = Source.stdin ∧ (eofAt 1000000).getcharRet = -1)
      ∧ sentPayloads (iterate stdinCfg initState (eofAt 1000000)).2
          = [buildPayload stdinCfg.frameDuration (toU64 (eofAt 1000000).clockUs)]
      ∧ (iterate stdinCfg initState (eofAt 1000000)).1.frame = (initState.frame + 1) % 2 ^ 64 :=
  ⟨⟨rfl, rfl⟩, (eof_is_a_pulse stdinCfg initState (eofAt 1000000) rfl rfl).1,
   (eof_is_a_pulse stdinCfg initState (eofAt 1000000) rfl rfl).2.1⟩

/-- C6: the frame counter starts at 0; an iteration that gets to the send step
adds exactly 1 to it whether `sendto` succeeded or failed, and an iteration
that does not leaves it alone; after a run in which `n < 2^64` iterations got to
the send step its value is `n`; and the result of `sendto` changes neither the
state carried into the next iteration nor the rest of the run. -/
theorem frame_counter (cfg : Config) (inps : List IterInput)
    (hn : (inps.filter (reachesSend cfg)).length < 2 ^ 64) :
    initState.frame = 0
      ∧ (run cfg initState inps).1.frame = (inps.filter (reachesSend cfg)).length
      ∧ (∀ st inp, st.frame + 1 < 2 ^ 64 → reachesSend cfg inp = true →
          (iterate cfg st inp).1.frame = st.frame + 1)
      ∧ (∀ st inp, reachesSend cfg inp = false → (iterate cfg st inp).1.frame = st.frame)
      ∧ (∀ st inp (r : Int), (iterate cfg st { inp with sendtoRet := r }).1
          = (iterate cfg st inp).1)
      ∧ (∀ st inp (r : Int) rest, (run cfg st ({ inp with sendtoRet := r } :: rest)).1
          = (run cfg st (inp :: rest)).1) := by
  have hlen : (pulseTimes cfg inps).length = (inps.filter (reachesSend cfg)).length := by
    simp [pulseTimes]
  have hsame : ∀ st inp (r : Int), (iterate cfg st { inp with sendtoRet := r }).1
      = (iterate cfg st inp).1 := by
    intro st inp r
    have hw : waitPulse cfg { inp with sendtoRet := r } = waitPulse cfg inp := by
      simp [waitPulse]
    simp only [iterate, hw]
    split_ifs <;> rfl
  refine ⟨rfl, ?_, ?_, ?_, hsame, ?_⟩
  · have h1 := frame_run cfg initState inps
    have h2 := frame_run_lt cfg initState inps (by decide)
    rw [Nat.mod_eq_of_lt h2, hlen] at h1
    rw [h1]
    simp only [initState, Nat.zero_add]
    exact Nat.mod_eq_of_lt hn
  · intro st inp hlt hr
    rw [iterate_of_reaches cfg st inp hr]
    exact Nat.mod_eq_of_lt hlt
  · intro st inp hr
    rw [iterate_of_not_reaches cfg st inp hr]
  · intro st inp r rest
    simp only [run, hsame]

/-- Witness for C6: three iterations, the second with a failed `sendto`. -/
theorem frame_counter_witness :
    ([pulseAt 0, sendFailAt 33333, pulseAt 66666].filter (reachesSend timerCfg)).length < 2 ^ 64
      ∧ (run timerCfg initState [pulseAt 0, sendFailAt 33333, pulseAt 66666]).1.frame
          = ([pulseAt 0, sendFailAt 33333, pulseAt 66666].filter (reachesSend timerCfg)).length
      ∧ ([pulseAt 0, sendFailAt 33333, pulseAt 66666].filter (reachesSend timerCfg)).length = 3 :=
  ⟨by decide,
   (frame_counter timerCfg [pulseAt 0, sendFailAt 33333, pulseAt 66666] (by decide)).2.1,
   by decide⟩

/-- C7: the first pulse of a run produces no interval report, whatever its
timestamp; over a run the reported intervals are, in order, the differences
modulo 2^64 between each later pulse's timestamp and the timestamp of the pulse
just before it, one report per later pulse. -/
theorem interval_reports (cfg : Config) (inps : List IterInput) :
    (∀ inp, reportedIntervals (iterate cfg initState inp).2 = [])
      ∧ (reportedIntervals (run cfg initState inps).2).map Prod.fst
          = List.zipWith diffU64 (pulseTimes cfg inps) (pulseTimes cfg inps).tail
      ∧ (∀ st inp, st.first = false → reachesSend cfg inp = true →
          (reportedIntervals (iterate cfg st inp).2).map Prod.fst
              = [diffU64 st.prevUs (toU64 inp.clockUs)]
            ∧ (iterate cfg st inp).1.prevUs = toU64 inp.clockUs
            ∧ (iterate cfg st inp).1.first = false)
      ∧ (∀ prev cur : Nat, prev < 2 ^ 64 → cur < 2 ^ 64 →
          (diffU64 prev cur : Int) = ((cur : Int) - (prev : Int)) % (2 ^ 64 : Int)) := by
  refine ⟨?_, reportedIntervals_run_init cfg inps, ?_, ?_⟩
  · intro inp
    rw [reportedIntervals_iterate]
    simp [initState]
  · intro st inp hf hr
    refine ⟨?_, ?_, ?_⟩
    · rw [reportedIntervals_iterate, if_pos ⟨hr, hf⟩]
      rfl
    · rw [iterate_of_reaches cfg st inp hr]
    · rw [iterate_of_reaches cfg st inp hr]
  · intro prev cur hp hc
    unfold diffU64
    omega

/-- Witness for C7: three pulses give two intervals. -/
theorem interval_reports_witness :
    (reportedIntervals (run timerCfg initState [pulseAt 5, pulseAt 33338, pulseAt 83338]).2).map
        Prod.fst
      = List.zipWith diffU64 (pulseTimes timerCfg [pulseAt 5, pulseAt 33338, pulseAt 83338])
          (pulseTimes timerCfg [pulseAt 5, pulseAt 33338, pulseAt 83338]).tail
    ∧ List.zipWith diffU64 (pulseTimes timerCfg [pulseAt 5, pulseAt 33338, pulseAt 83338])
          (pulseTimes timerCfg [pulseAt 5, pulseAt 33338, pulseAt 83338]).tail = [33333, 50000] :=
  ⟨(interval_reports timerCfg [pulseAt 5, pulseAt 33338, pulseAt 83338]).2.1, by decide⟩

/-- C8: with the GPIO source, an iteration in which the edge wait or the event
read reports an error logs that error and nothing else (the wait error when
the wait failed, the read error when the wait succeeded and the read failed),
hands no payload to `sendto`, leaves the frame counter, the previous timestamp
and the first-pulse flag as they were, and the loop goes on with the next wait
from the unchanged state. -/
theorem gpio_error_retries (cfg : Config) (st : LoopState) (inp : IterInput)
    (hsrc : cfg.source = Source.gpio) (hg : cfg.haveGpiod = true)
    (herr : inp.gpioWaitRet < 0 ∨ inp.gpioReadRet < 0) :
    (iterate cfg st inp).1 = st
      ∧ ((iterate cfg st inp).2 = [Event.gpioWaitError]
          ∨ (iterate cfg st inp).2 = [Event.gpioReadError])
      ∧ sentPayloads (iterate cfg st inp).2 = []
      ∧ (∀ rest, run cfg st (inp :: rest)
          = ((run cfg st rest).1, (iterate cfg st inp).2 ++ (run cfg st rest).2))
      ∧ (inp.gpioWaitRet < 0 → (iterate cfg st inp).2 = [Event.gpioWaitError])
      ∧ (¬ inp.gpioWaitRet < 0 → inp.gpioReadRet < 0 →
          (iterate cfg st inp).2 = [Event.gpioReadError]) := by
  have hnr : reachesSend cfg inp = false := by
    unfold reachesSend waitPulse
    rw [hsrc]
    simp only [hg, if_true]
    rcases herr with h | h
    · rw [if_pos h]
    · split_ifs <;> rfl
  have hst : (iterate cfg st inp).1 = st := by
    rw [iterate_of_not_reaches cfg st inp hnr]
  have hev : (iterate cfg st inp).2 =
      if inp.gpioWaitRet < 0 then [Event.gpioWaitError] else [Event.gpioReadError] := by
    rw [iterate_of_not_reaches cfg st inp hnr]
    unfold waitPulse
    rw [hsrc]
    simp only [hg, if_true]
    by_cases hw : inp.gpioWaitRet < 0
    · rw [if_pos hw, if_pos hw]
    · rw [if_neg hw, if_neg hw, if_pos (herr.resolve_left hw)]
  refine ⟨hst, ?_, ?_, ?_, ?_, ?_⟩
  · rw [iterate_of_not_reaches cfg st inp hnr]
    unfold waitPulse
    rw [hsrc]
    simp only [hg, if_true]
    by_cases hw : inp.gpioWaitRet < 0
    · left; rw [if_pos hw]
    · right
      have hrd : inp.gpioReadRet < 0 := herr.resolve_left hw
      rw [if_neg hw, if_pos hrd]
  · rw [sentPayloads_iterate, hnr]; rfl
  · intro rest
    simp only [run, hst]
  · intro hw
    rw [hev, if_pos hw]
  · intro hw _
    rw [hev, if_neg hw]

/-- Witness for C8: after one good pulse, a failed event read logs the read
error and a failed edge wait logs the wait error, the state staying as it
was. -/
theorem gpio_error_retries_witness :
    (gpioCfg.source = Source.gpio ∧ gpioCfg.haveGpiod = true
        ∧ (gpioReadFail.gpioWaitRet < 0 ∨ gpioReadFail.gpioReadRet < 0)
        ∧ (gpioWaitFail.gpioWaitRet < 0 ∨ gpioWaitFail.gpioReadRet < 0))
      ∧ (iterate gpioCfg { frame := 1, prevUs := 1000000, first := false } gpioReadFail).1
          = { frame := 1, prevUs := 1000000, first := false }
      ∧ (iterate gpioCfg { frame := 1, prevUs := 1000000, first := false } gpioReadFail).2
          = [Event.gpioReadError]
      ∧ (iterate gpioCfg { frame := 1, prevUs := 1000000, first := false } gpioWaitFail).2
          = [Event.gpioWaitError] :=
  ⟨⟨rfl, rfl, by decide, by decide⟩,
   (gpio_error_retries gpioCfg { frame := 1, prevUs := 1000000, first := false } gpioReadFail
      rfl rfl (by decide)).1,
   (gpio_error_retries gpioCfg { frame := 1, prevUs := 1000000, first := false } gpioReadFail
      rfl rfl (by decide)).2.2.2.2.2 (by decide) (by decide),
   (gpio_error_retries gpioCfg { frame := 1, prevUs := 1000000, first := false } gpioWaitFail
      rfl rfl (by decide)).2.2.2.2.1 (by decide)⟩

end HwSync
